import Mathlib

/-!
Shallow embedding of `fibers_timeout_queue` (`src/lib.rs`), a deadline-ordered
timeout queue.

Modelling conventions:

* `SystemTime` instants and `Duration`s are `Nat` (an abstract tick count).
  `SystemTime + Duration` is `Nat` addition; `a.duration_since(b)` succeeds
  with `a - b` exactly when `b ≤ a` (Rust returns `Err` when the argument is
  strictly later), and `.ok()` turns the `Err` case into `none`.
* A `fibers` `Timeout` wake-up handle is opaque to this crate except for the
  duration it was registered with and whether polling it reports `Ready`.
  We model a handle as the registered duration (`Nat`); whether an existing
  handle has fired at a given poll is an oracle input `fired : Bool` supplied
  by the environment (the external reactor).  Polling `Option<Timeout>` in
  `futures` 0.1 is `Ready` when the option is `none`, or when the inner
  handle has fired.
* Each call to `SystemTime::now()` in the source is a separate clock sample,
  passed as an explicit parameter in source order: `push` samples once at its
  start (`now`) and `poll_timeout` samples again (`pollNow`); `filter_pop`
  samples once for its scan (`now`) and its trailing `poll_timeout` samples
  again (`pollNow`).
* `std::collections::BinaryHeap<Item<T>>` with `Item`'s inverted ordering is
  a priority queue that pops a minimum-`expiry_time` element, with an
  unspecified order among equal expiry times.  It is modelled as a list kept
  sorted ascending by `expiry_time`: `push` is ordered insertion, `pop`
  takes the head, `peek` is `head?`.  This fixes the (unspecified) tie order
  but is otherwise a faithful implementation of the heap contract.
-/

namespace FTQ

/-- `Item<T>` from the source: an absolute expiry instant plus the payload. -/
structure Item (T : Type) where
  expiry_time : Nat
  item : T
deriving Repr, DecidableEq

/-- `Ord for Item`: `other.expiry_time.cmp(&self.expiry_time)` — the
comparison of the expiry times, inverted so that Rust's max-heap behaves as
a min-heap.  The payload is never inspected. -/
def Item.cmp {T : Type} (a b : Item T) : Ordering :=
  compare b.expiry_time a.expiry_time

/-- `PartialOrd for Item`: `other.expiry_time.partial_cmp(&self.expiry_time)`;
`SystemTime`'s order is total, so this is always `some`. -/
def Item.partial_cmp {T : Type} (a b : Item T) : Option Ordering :=
  some (compare b.expiry_time a.expiry_time)

/-- `PartialEq for Item`: `self.expiry_time == other.expiry_time`; the
payload is never inspected. -/
def Item.beq {T : Type} (a b : Item T) : Bool :=
  a.expiry_time == b.expiry_time

/-- Ordered insertion into the ascending-by-expiry list modelling
`BinaryHeap::push` (a new element with an expiry equal to existing ones lands
before them; the source leaves tie order unspecified). -/
def heapInsert {T : Type} (x : Item T) : List (Item T) → List (Item T)
  | [] => [x]
  | y :: ys => if x.expiry_time ≤ y.expiry_time then x :: y :: ys else y :: heapInsert x ys

/-- The queue's heap is well-formed when it is sorted ascending by
`expiry_time`, so that the head is a minimum-expiry element (what
`BinaryHeap::pop`/`peek` return under `Item`'s inverted ordering). -/
def sortedByExpiry {T : Type} (l : List (Item T)) : Prop :=
  l.Pairwise (fun a b => a.expiry_time ≤ b.expiry_time)

instance {T : Type} (l : List (Item T)) : Decidable (sortedByExpiry l) :=
  List.instDecidablePairwise l

/-- `TimeoutQueue<T>`: the heap plus the optional pending wake-up handle
(`next_timeout`), the latter modelled by the duration it was registered
with. -/
structure TimeoutQueue (T : Type) where
  queue : List (Item T)
  next_timeout : Option Nat
deriving Repr, DecidableEq

namespace TimeoutQueue

/-- `TimeoutQueue::new` (also `Default::default`): empty heap, no pending
wake-up handle. -/
def new (T : Type) : TimeoutQueue T :=
  { queue := [], next_timeout := none }

/-- `TimeoutQueue::poll_timeout`.  `fired` is the oracle answer for polling
the pending handle (relevant only when one exists; polling `none` is
`Ready`); `now` is the `SystemTime::now()` sample taken inside
`duration_since`.  When the poll is `Ready`, `next_timeout` is recomputed
from the current minimum: `peek().and_then(|x|
x.expiry_time.duration_since(now).ok()).map(timer::timeout)` — in particular
it becomes `none` when the heap is empty or its minimum is strictly in the
past. -/
def poll_timeout {T : Type} (fired : Bool) (now : Nat) (s : TimeoutQueue T) :
    TimeoutQueue T :=
  if s.next_timeout.isNone || fired then
    { s with next_timeout :=
        s.queue.head?.bind fun x =>
          if now ≤ x.expiry_time then some (x.expiry_time - now) else none }
  else s

/-- `TimeoutQueue::push`.  `now` is the sample taken at the start of the call
(`expiry_time = now + timeout`); `pollNow`/`fired` feed the trailing
`poll_timeout`.  The reset test peeks the heap *before* inserting. -/
def push {T : Type} (item : T) (timeout : Nat) (now pollNow : Nat) (fired : Bool)
    (s : TimeoutQueue T) : TimeoutQueue T :=
  let expiry_time := now + timeout
  let reset_next_timeout : Bool :=
    match s.queue.head? with
    | some x => decide (expiry_time < x.expiry_time)
    | none => false
  let s1 : TimeoutQueue T :=
    { queue := heapInsert { expiry_time := expiry_time, item := item } s.queue
      next_timeout := if reset_next_timeout then none else s.next_timeout }
  poll_timeout fired pollNow s1

/-- The `while let Some(x) = self.queue.pop()` loop of
`TimeoutQueue::filter_pop`, on the heap contents: returns the loop's result
(`some payload` on the early `return`, `none` on `break` or exhaustion) and
the heap contents when the loop exits.  A rejected minimum is dropped; an
accepted but unexpired minimum is pushed back and the loop breaks; an
accepted expired minimum is returned. -/
def filterPopLoop {T : Type} (filter : T → Bool) (now : Nat) :
    List (Item T) → Option T × List (Item T)
  | [] => (none, [])
  | x :: xs =>
    if filter x.item = false then filterPopLoop filter now xs
    else if now < x.expiry_time then (none, heapInsert x xs)
    else (some x.item, xs)

/-- `TimeoutQueue::filter_pop`.  `now` is the single sample taken at the
start and used by every comparison in the scan; `pollNow`/`fired` feed
`poll_timeout`.  On the early `return Some(x.item)` path the function
returns *without* reaching the `self.poll_timeout()` call; on every `None`
path `poll_timeout` runs first. -/
def filter_pop {T : Type} (filter : T → Bool) (now pollNow : Nat) (fired : Bool)
    (s : TimeoutQueue T) : Option T × TimeoutQueue T :=
  match filterPopLoop filter now s.queue with
  | (some v, q) => (some v, { s with queue := q })
  | (none, q) => (none, poll_timeout fired pollNow { s with queue := q })

/-- `TimeoutQueue::pop`: `self.filter_pop(|_| true)`. -/
def pop {T : Type} (now pollNow : Nat) (fired : Bool) (s : TimeoutQueue T) :
    Option T × TimeoutQueue T :=
  s.filter_pop (fun _ => true) now pollNow fired

/-- `TimeoutQueue::len`: `self.queue.len()`. -/
def len {T : Type} (s : TimeoutQueue T) : Nat :=
  s.queue.length

/-- `TimeoutQueue::is_empty`: `self.queue.is_empty()`. -/
def is_empty {T : Type} (s : TimeoutQueue T) : Bool :=
  s.queue.isEmpty

end TimeoutQueue

/-- One externally triggered operation on the queue, with its clock samples
and wake-up-poll oracle answer. -/
inductive Op (T : Type) where
  | push (item : T) (timeout now pollNow : Nat) (fired : Bool)
  | fpop (filter : T → Bool) (now pollNow : Nat) (fired : Bool)

/-- Apply one operation to a queue state (the result of `filter_pop` is
discarded; only the state evolution matters for the count invariant). -/
def applyOp {T : Type} (s : TimeoutQueue T) : Op T → TimeoutQueue T
  | .push item timeout now pollNow fired => s.push item timeout now pollNow fired
  | .fpop filter now pollNow fired => (s.filter_pop filter now pollNow fired).2

/-- Run a list of operations from a given state, first operation first. -/
def runFrom {T : Type} (s : TimeoutQueue T) : List (Op T) → TimeoutQueue T
  | [] => s
  | op :: ops => runFrom (applyOp s op) ops

/-- Number of items a `filter_pop` scan removes from the given heap
contents: every rejected entry it discards, plus the returned entry when the
first accepted one is expired (an accepted unexpired entry is reinserted,
removing nothing). -/
def scanRemoved {T : Type} (filter : T → Bool) (now : Nat) :
    List (Item T) → Nat
  | [] => 0
  | x :: xs =>
    if filter x.item = false then scanRemoved filter now xs + 1
    else if now < x.expiry_time then 0 else 1

/-- Items pushed by one operation. -/
def opPushed {T : Type} : Op T → Nat
  | .push _ _ _ _ _ => 1
  | .fpop _ _ _ _ => 0

/-- Items removed by one operation applied in state `s` (returned by
`filter_pop` or discarded by a failing predicate). -/
def opRemoved {T : Type} (s : TimeoutQueue T) : Op T → Nat
  | .push _ _ _ _ _ => 0
  | .fpop filter now _ _ => scanRemoved filter now s.queue

/-- Total items removed along a run starting in state `s`. -/
def runRemoved {T : Type} (s : TimeoutQueue T) : List (Op T) → Nat
  | [] => 0
  | op :: ops => opRemoved s op + runRemoved (applyOp s op) ops

/-- Total items pushed by a list of operations. -/
def runPushed {T : Type} : List (Op T) → Nat
  | ([] : List (Op T)) => 0
  | op :: ops => opPushed op + runPushed ops

end FTQ

namespace FTQ

open TimeoutQueue

/-! ### Shared helper lemmas -/

/-- `poll_timeout` only touches the wake-up handle, never the heap. -/
theorem poll_timeout_queue {T : Type} (fired : Bool) (now : Nat) (s : TimeoutQueue T) :
    (poll_timeout fired now s).queue = s.queue := by
  unfold poll_timeout
  split <;> rfl

/-- Ordered insertion grows the heap by exactly one element. -/
theorem heapInsert_length {T : Type} (x : Item T) (l : List (Item T)) :
    (heapInsert x l).length = l.length + 1 := by
  induction l with
  | nil => rfl
  | cons y ys ih =>
    unfold heapInsert
    split
    · rfl
    · simp [List.length_cons, ih]

/-- Inserting an element no larger than the head of a list puts it in front. -/
theorem heapInsert_of_le_head {T : Type} (x : Item T) (l : List (Item T))
    (h : ∀ y ∈ l.head?, x.expiry_time ≤ y.expiry_time) :
    heapInsert x l = x :: l := by
  cases l with
  | nil => rfl
  | cons y ys =>
    unfold heapInsert
    rw [if_pos (h y rfl)]

/-! ### C6: `pop` is `filter_pop` with the always-true predicate -/

/-- C6: for every queue state and every pair of clock samples and wake-up
oracle answer, `pop` returns the same result and produces the same final
state (heap and wake-up handle) as `filter_pop` with the always-true
predicate — in the source `pop` is literally `self.filter_pop(|_| true)`. -/
theorem C6_pop_eq_filter_pop_true {T : Type} (now pollNow : Nat) (fired : Bool)
    (s : TimeoutQueue T) :
    s.pop now pollNow fired = s.filter_pop (fun _ => true) now pollNow fired := rfl

/-! ### C8: entries are ordered exclusively by expiry time -/

/-- C8: `Item`'s comparison is exactly the min-heap-oriented (inverted)
comparison of the expiry times, `partial_cmp` is its total refinement,
equality of items is equality of expiry times, payloads never influence
either, and two items with equal expiry times but arbitrary (possibly
different) payloads compare as equal. -/
theorem C8_item_ordering_by_expiry_only {T : Type} (a b : Item T) :
    (Item.cmp a b = (compare a.expiry_time b.expiry_time).swap) ∧
    (Item.partial_cmp a b = some (Item.cmp a b)) ∧
    (Item.beq a b = true ↔ a.expiry_time = b.expiry_time) ∧
    (∀ p q : T,
      Item.cmp { a with item := p } { b with item := q } = Item.cmp a b ∧
      Item.beq { a with item := p } { b with item := q } = Item.beq a b) ∧
    (∀ (e : Nat) (p q : T),
      Item.cmp { expiry_time := e, item := p } { expiry_time := e, item := q } = Ordering.eq ∧
      Item.beq { expiry_time := e, item := p } { expiry_time := e, item := q } = true) := by
  refine ⟨(Nat.compare_swap a.expiry_time b.expiry_time).symm, rfl, ?_, ?_, ?_⟩
  · simp [Item.beq, Nat.beq_eq]
  · intro p q
    exact ⟨rfl, rfl⟩
  · intro e p q
    constructor
    · simp [Item.cmp, Nat.compare_eq_eq]
    · simp [Item.beq]

/-- Closed instance of C8 (the equal-expiry, different-payload case at a
concrete pair of items). -/
theorem C8_witness :
    Item.cmp ({ expiry_time := 4, item := 1 } : Item Nat) { expiry_time := 4, item := 2 } =
        Ordering.eq ∧
    Item.beq ({ expiry_time := 4, item := 1 } : Item Nat) { expiry_time := 4, item := 2 } =
        true :=
  (C8_item_ordering_by_expiry_only ({ expiry_time := 4, item := 1 } : Item Nat)
    { expiry_time := 4, item := 3 }).2.2.2.2 4 1 2

/-! ### C1: does `filter_pop` run wake-up synchronization in all cases? -/

/-- C1 counterexample: a `filter_pop` call that returns `Some` does *not*
run wake-up synchronization before returning.  Queue `[⟨0,0⟩, ⟨10,1⟩]` with
no pending handle, scan time 3, poll time 3: the call returns `some 0`, and
its final state differs from the result of running `poll_timeout` on the
post-scan state (which would register a handle for `10 - 3 = 7`). -/
theorem C1_counterexample :
    (TimeoutQueue.filter_pop (fun _ => true) 3 3 true
        (⟨[⟨0, 0⟩, ⟨10, 1⟩], none⟩ : TimeoutQueue Nat)).1 = some 0 ∧
    (TimeoutQueue.filter_pop (fun _ => true) 3 3 true
        (⟨[⟨0, 0⟩, ⟨10, 1⟩], none⟩ : TimeoutQueue Nat)).2 ≠
      poll_timeout true 3 (⟨[⟨10, 1⟩], none⟩ : TimeoutQueue Nat) := by
  decide

/-- C1 amended: `filter_pop` runs wake-up synchronization (`poll_timeout`)
on the post-scan state before returning on every path that returns `none`
(empty queue, exhausted scan, or stop-on-unexpired); but on the path that
returns `some payload` it returns immediately, leaving the pending wake-up
handle exactly as it was before the call. -/
theorem C1_filter_pop_sync_only_on_none {T : Type} (f : T → Bool)
    (now pollNow : Nat) (fired : Bool) (s : TimeoutQueue T) :
    ((s.filter_pop f now pollNow fired).1 = none →
      (s.filter_pop f now pollNow fired).2 =
        poll_timeout fired pollNow ⟨(filterPopLoop f now s.queue).2, s.next_timeout⟩) ∧
    (∀ v, (s.filter_pop f now pollNow fired).1 = some v →
      (s.filter_pop f now pollNow fired).2 =
        ⟨(filterPopLoop f now s.queue).2, s.next_timeout⟩) := by
  unfold TimeoutQueue.filter_pop
  rcases h : filterPopLoop f now s.queue with ⟨r, q⟩
  cases r <;> simp [h]

/-- Closed instance of C1 amended: a call returning `some 7` leaves the
stale pending handle `some 9` untouched. -/
theorem C1_witness :
    (TimeoutQueue.filter_pop (fun _ => true) 5 5 true
        (⟨[⟨0, 7⟩], some 9⟩ : TimeoutQueue Nat)).2 =
      (⟨[], some 9⟩ : TimeoutQueue Nat) :=
  (C1_filter_pop_sync_only_on_none (fun _ => true) 5 5 true
    (⟨[⟨0, 7⟩], some 9⟩ : TimeoutQueue Nat)).2 7 rfl

/-! ### C2: what the recompute step installs -/

/-- C2 counterexample: when the pending handle is absent and the queue's
minimum is already strictly expired (expiry 0, now 5), the recompute step
*clears* the handle instead of creating one for duration
`max(0, 0 - 5) = 0` as the claim states. -/
theorem C2_counterexample :
    (poll_timeout true 5 (⟨[⟨0, 0⟩], none⟩ : TimeoutQueue Nat)).next_timeout = none ∧
    (poll_timeout true 5 (⟨[⟨0, 0⟩], none⟩ : TimeoutQueue Nat)).next_timeout ≠ some 0 := by
  decide

/-- C2 amended: when the pending handle has fired or is absent, the
recompute step peeks the heap: if the minimum exists and its expiry is
`≥ now`, a new handle is registered for `expiry_time - now` (duration 0
when they are equal); if the minimum is already strictly in the past, or
the queue is empty, the pending handle is cleared to absent.  The heap is
never touched. -/
theorem C2_poll_timeout_recompute {T : Type} (fired : Bool) (now : Nat)
    (s : TimeoutQueue T) (h : s.next_timeout = none ∨ fired = true) :
    ((poll_timeout fired now s).queue = s.queue) ∧
    (s.queue.head? = none → (poll_timeout fired now s).next_timeout = none) ∧
    (∀ x, s.queue.head? = some x →
      (now ≤ x.expiry_time →
        (poll_timeout fired now s).next_timeout = some (x.expiry_time - now)) ∧
      (x.expiry_time < now →
        (poll_timeout fired now s).next_timeout = none)) := by
  have hc : (s.next_timeout.isNone || fired) = true := by
    rcases h with h | h
    · simp [h]
    · simp [h]
  refine ⟨poll_timeout_queue fired now s, ?_, ?_⟩
  · intro hq
    simp [poll_timeout, hc, hq]
  · intro x hx
    constructor
    · intro hle
      simp [poll_timeout, hc, hx, hle]
    · intro hlt
      simp [poll_timeout, hc, hx, Nat.not_le.mpr hlt]

/-- Closed instance of C2 amended: absent handle, minimum expiry 10, now 4:
a new handle for duration 6 is registered. -/
theorem C2_witness :
    (poll_timeout true 4 (⟨[⟨10, 3⟩], some 2⟩ : TimeoutQueue Nat)).next_timeout = some 6 :=
  ((C2_poll_timeout_recompute true 4 (⟨[⟨10, 3⟩], some 2⟩ : TimeoutQueue Nat)
    (Or.inr rfl)).2.2 ⟨10, 3⟩ rfl).1 (by decide)

end FTQ

namespace FTQ

open TimeoutQueue

/-! ### More shared helper lemmas about the scan loop -/

/-- The result value of `filter_pop` is the result value of its scan loop
(the trailing `poll_timeout` never changes it). -/
theorem filter_pop_fst {T : Type} (f : T → Bool) (now pollNow : Nat) (fired : Bool)
    (s : TimeoutQueue T) :
    (s.filter_pop f now pollNow fired).1 = (filterPopLoop f now s.queue).1 := by
  unfold TimeoutQueue.filter_pop
  rcases h : filterPopLoop f now s.queue with ⟨r, q⟩
  cases r <;> simp [h]

/-- The final heap of `filter_pop` is the heap the scan loop leaves behind
(the trailing `poll_timeout` never changes it). -/
theorem filter_pop_queue {T : Type} (f : T → Bool) (now pollNow : Nat) (fired : Bool)
    (s : TimeoutQueue T) :
    (s.filter_pop f now pollNow fired).2.queue = (filterPopLoop f now s.queue).2 := by
  unfold TimeoutQueue.filter_pop
  rcases h : filterPopLoop f now s.queue with ⟨r, q⟩
  cases r <;> simp [h, poll_timeout_queue]

/-- When the scan loop returns a payload, that payload belongs to an entry
of the scanned heap that is accepted by the predicate and already expired
at the scan's clock sample. -/
theorem filterPopLoop_some_mem {T : Type} (f : T → Bool) (now : Nat) :
    ∀ (l : List (Item T)) (v : T), (filterPopLoop f now l).1 = some v →
      ∃ x, x ∈ l ∧ x.item = v ∧ x.expiry_time ≤ now ∧ f x.item = true := by
  intro l
  induction l with
  | nil => simp [filterPopLoop]
  | cons x xs ih =>
    intro v hv
    unfold filterPopLoop at hv
    by_cases hf : f x.item = false
    · rw [if_pos hf] at hv
      obtain ⟨y, hy, hyv, hye, hyf⟩ := ih v hv
      exact ⟨y, List.mem_cons_of_mem x hy, hyv, hye, hyf⟩
    · rw [if_neg hf] at hv
      by_cases ht : now < x.expiry_time
      · rw [if_pos ht] at hv
        simp at hv
      · rw [if_neg ht] at hv
        simp at hv
        exact ⟨x, List.mem_cons_self x xs, hv, Nat.le_of_not_lt ht,
          eq_true_of_ne_false hf⟩

/-- When the rejected prefix of a sorted heap is followed by an accepted
entry that is still unexpired, the scan loop discards exactly that prefix,
reinserts the accepted entry at the front, and stops. -/
theorem filterPopLoop_stop_unexpired {T : Type} (f : T → Bool) (now : Nat) :
    ∀ (l : List (Item T)) (x : Item T) (xs : List (Item T)),
      sortedByExpiry l →
      l.dropWhile (fun y => !(f y.item)) = x :: xs →
      now < x.expiry_time →
      filterPopLoop f now l = (none, x :: xs) ∧ f x.item = true := by
  intro l
  induction l with
  | nil =>
    intro x xs _ hd
    simp [List.dropWhile] at hd
  | cons y ys ih =>
    intro x xs hs hd hx
    rw [List.dropWhile_cons] at hd
    by_cases hf : f y.item = false
    · rw [if_pos (by simp [hf])] at hd
      have hs' : sortedByExpiry ys := (List.pairwise_cons.mp hs).2
      obtain ⟨hloop, hfx⟩ := ih x xs hs' hd hx
      refine ⟨?_, hfx⟩
      unfold filterPopLoop
      rw [if_pos hf]
      exact hloop
    · have hf' : f y.item = true := eq_true_of_ne_false hf
      rw [if_neg (by simp [hf'])] at hd
      injection hd with h1 h2
      subst h1
      subst h2
      refine ⟨?_, hf'⟩
      unfold filterPopLoop
      rw [if_neg hf, if_pos hx]
      congr 1
      apply heapInsert_of_le_head
      intro z hz
      exact (List.pairwise_cons.mp hs).1 z (List.mem_of_mem_head? hz)

/-! ### C3: only expired items are ever returned -/

/-- C3: `filter_pop` (with any predicate) returns `some v` only when `v` is
the payload of an entry of the pre-call heap whose expiry is `≤ now` (the
scan's clock sample) and which the predicate accepts; and `pop` returns
`none` on an empty queue and whenever the minimum (the head of the sorted
heap) has not yet expired. -/
theorem C3_only_expired_returned {T : Type} (f : T → Bool) (now pollNow : Nat)
    (fired : Bool) (s : TimeoutQueue T) :
    (∀ v, (s.filter_pop f now pollNow fired).1 = some v →
      ∃ x, x ∈ s.queue ∧ x.item = v ∧ x.expiry_time ≤ now ∧ f x.item = true) ∧
    (s.queue = [] → (s.pop now pollNow fired).1 = none) ∧
    (∀ x xs, s.queue = x :: xs → now < x.expiry_time →
      (s.pop now pollNow fired).1 = none) := by
  refine ⟨?_, ?_, ?_⟩
  · intro v hv
    rw [filter_pop_fst] at hv
    exact filterPopLoop_some_mem f now s.queue v hv
  · intro hq
    rw [TimeoutQueue.pop, filter_pop_fst, hq]
    rfl
  · intro x xs hq hx
    rw [TimeoutQueue.pop, filter_pop_fst, hq]
    unfold filterPopLoop
    rw [if_neg (by simp), if_pos hx]

/-- Closed instance of C3: a returned payload comes from an expired,
accepted entry of the pre-call heap. -/
theorem C3_witness :
    ∃ x, x ∈ [(⟨0, 5⟩ : Item Nat)] ∧ x.item = 5 ∧ x.expiry_time ≤ 3 ∧
      (fun _ => true) x.item = true :=
  (C3_only_expired_returned (fun _ => true) 3 3 true
    (⟨[⟨0, 5⟩], none⟩ : TimeoutQueue Nat)).1 5 rfl

/-! ### C4: predicate-rejected minima are discarded regardless of expiry -/

/-- C4: when the current minimum's payload is rejected by the predicate,
`filter_pop` behaves exactly as if that entry had never been in the queue —
it is permanently removed, whatever its expiry (the entry `x` below is
arbitrary, expired or not), and the scan continues with the remaining heap;
moreover a rejected payload is never the returned value (any returned
payload is accepted by the predicate). -/
theorem C4_rejected_discarded {T : Type} (f : T → Bool) (now pollNow : Nat)
    (fired : Bool) :
    (∀ (x : Item T) (xs : List (Item T)) (nt : Option Nat), f x.item = false →
      TimeoutQueue.filter_pop f now pollNow fired ⟨x :: xs, nt⟩ =
        TimeoutQueue.filter_pop f now pollNow fired ⟨xs, nt⟩) ∧
    (∀ (s : TimeoutQueue T) (v : T),
      (s.filter_pop f now pollNow fired).1 = some v → f v = true) := by
  constructor
  · intro x xs nt hf
    simp only [TimeoutQueue.filter_pop, filterPopLoop, hf, if_true]
  · intro s v hv
    rw [filter_pop_fst] at hv
    obtain ⟨x, _, hxv, _, hxf⟩ := filterPopLoop_some_mem f now s.queue v hv
    rw [← hxv]
    exact hxf

/-- Closed instance of C4: the rejected minimum `⟨9, 2⟩` is unexpired at
scan time 3, yet the call is identical to the call on the queue without
it. -/
theorem C4_witness :
    TimeoutQueue.filter_pop (fun n => decide (n > 5)) 3 3 true
        (⟨[⟨9, 2⟩, ⟨10, 7⟩], none⟩ : TimeoutQueue Nat) =
      TimeoutQueue.filter_pop (fun n => decide (n > 5)) 3 3 true
        (⟨[⟨10, 7⟩], none⟩ : TimeoutQueue Nat) :=
  (C4_rejected_discarded (fun n => decide (n > 5)) 3 3 true).1 ⟨9, 2⟩ [⟨10, 7⟩] none
    (by decide)

/-! ### C5: stop on the first accepted, unexpired minimum -/

/-- C5: on a sorted heap, when the entries before the first
predicate-accepted one (the `dropWhile` prefix) are followed by an accepted
entry `x` that is still unexpired at the scan's clock sample, `filter_pop`
returns `none` and the final heap is exactly `x :: xs`: the accepted entry
is reinserted unchanged and every entry beyond it — including ones that
would themselves fail the predicate — is left completely untouched. -/
theorem C5_stop_on_unexpired {T : Type} (f : T → Bool) (now pollNow : Nat)
    (fired : Bool) (s : TimeoutQueue T) (x : Item T) (xs : List (Item T))
    (hs : sortedByExpiry s.queue)
    (hd : s.queue.dropWhile (fun y => !(f y.item)) = x :: xs)
    (hx : now < x.expiry_time) :
    (s.filter_pop f now pollNow fired).1 = none ∧
    (s.filter_pop f now pollNow fired).2.queue = x :: xs ∧
    f x.item = true := by
  obtain ⟨hloop, hfx⟩ := filterPopLoop_stop_unexpired f now s.queue x xs hs hd hx
  refine ⟨?_, ?_, hfx⟩
  · rw [filter_pop_fst, hloop]
  · rw [filter_pop_queue, hloop]

/-- Closed instance of C5: prefix payload 1 is rejected and discarded, the
accepted payload 7 (expiry 9 > 3) is reinserted, and the trailing entry
with payload 2 — which would also fail the predicate — stays untouched. -/
theorem C5_witness :
    (TimeoutQueue.filter_pop (fun n => decide (5 ≤ n)) 3 3 true
        (⟨[⟨2, 1⟩, ⟨9, 7⟩, ⟨10, 2⟩], none⟩ : TimeoutQueue Nat)).1 = none ∧
    (TimeoutQueue.filter_pop (fun n => decide (5 ≤ n)) 3 3 true
        (⟨[⟨2, 1⟩, ⟨9, 7⟩, ⟨10, 2⟩], none⟩ : TimeoutQueue Nat)).2.queue =
      [⟨9, 7⟩, ⟨10, 2⟩] ∧
    (fun n => decide (5 ≤ n)) (Item.item (⟨9, (7 : Nat)⟩ : Item Nat)) = true :=
  C5_stop_on_unexpired (fun n => decide (5 ≤ n)) 3 3 true
    (⟨[⟨2, 1⟩, ⟨9, 7⟩, ⟨10, 2⟩], none⟩ : TimeoutQueue Nat) ⟨9, 7⟩ [⟨10, 2⟩]
    (by decide) (by decide) (by decide)

end FTQ

namespace FTQ

open TimeoutQueue

/-! ### Helper lemmas for `push` and the count invariant -/

/-- Ordered insertion is a permutation of consing. -/
theorem heapInsert_perm {T : Type} (x : Item T) (l : List (Item T)) :
    (heapInsert x l).Perm (x :: l) := by
  induction l with
  | nil => exact List.Perm.refl _
  | cons y ys ih =>
    unfold heapInsert
    split
    · exact List.Perm.refl _
    · exact (ih.cons y).trans (List.Perm.swap x y ys)

/-- The heap after `push` is the old heap with the new entry inserted. -/
theorem push_queue {T : Type} (item : T) (timeout now pollNow : Nat) (fired : Bool)
    (s : TimeoutQueue T) :
    (s.push item timeout now pollNow fired).queue =
      heapInsert { expiry_time := now + timeout, item := item } s.queue := by
  simp [TimeoutQueue.push, poll_timeout_queue]

/-- The scan loop shrinks the heap by exactly the number of entries it
removes (discarded plus returned). -/
theorem filterPopLoop_length {T : Type} (f : T → Bool) (now : Nat) :
    ∀ l : List (Item T),
      (filterPopLoop f now l).2.length + scanRemoved f now l = l.length := by
  intro l
  induction l with
  | nil => rfl
  | cons x xs ih =>
    unfold filterPopLoop scanRemoved
    by_cases hf : f x.item = false
    · simp only [if_pos hf, List.length_cons]
      omega
    · simp only [if_neg hf]
      by_cases ht : now < x.expiry_time
      · simp [if_pos ht, heapInsert_length]
      · simp [if_neg ht]

/-- Item conservation for a single operation: `push` adds one, `filter_pop`
removes `opRemoved` many (returned plus discarded). -/
theorem applyOp_len {T : Type} (s : TimeoutQueue T) (op : Op T) :
    (applyOp s op).len + opRemoved s op = s.len + opPushed op := by
  cases op with
  | push item timeout now pollNow fired =>
    simp [applyOp, opRemoved, opPushed, TimeoutQueue.len, push_queue, heapInsert_length]
  | fpop f now pollNow fired =>
    simp only [applyOp, opRemoved, opPushed, TimeoutQueue.len, filter_pop_queue]
    exact filterPopLoop_length f now s.queue

/-- Item conservation along a whole run. -/
theorem runFrom_len {T : Type} :
    ∀ (ops : List (Op T)) (s : TimeoutQueue T),
      (runFrom s ops).len + runRemoved s ops = s.len + runPushed ops := by
  intro ops
  induction ops with
  | nil =>
    intro s
    simp [runFrom, runRemoved, runPushed]
  | cons op ops ih =>
    intro s
    have h1 := applyOp_len s op
    have h2 := ih (applyOp s op)
    simp only [runFrom, runRemoved, runPushed]
    omega

/-! ### C7: the count invariant -/

/-- C7: after any sequence of `push` / `filter_pop` (hence also `pop`)
operations starting from `new()`, the number of items in the queue plus the
number of items removed along the run (returned by `filter_pop`, or
discarded by a failing predicate) equals the number of items pushed — i.e.
`len()` is pushes minus removals and the heap holds exactly the live items,
expired or not.  `len` and `is_empty` are pure observers of the heap
(`is_empty` is `len = 0`), so they never change the count. -/
theorem C7_count_invariant {T : Type} (ops : List (Op T)) :
    ((runFrom (TimeoutQueue.new T) ops).len + runRemoved (TimeoutQueue.new T) ops =
      runPushed ops) ∧
    (∀ s : TimeoutQueue T, s.len = s.queue.length ∧ (s.is_empty = true ↔ s.len = 0)) := by
  constructor
  · have h := runFrom_len ops (TimeoutQueue.new T)
    simpa [TimeoutQueue.len, TimeoutQueue.new] using h
  · intro s
    refine ⟨rfl, ?_⟩
    simp [TimeoutQueue.is_empty, TimeoutQueue.len, List.isEmpty_iff_length_eq_zero]

/-- Closed instance of C7: push one item (expiry 2), then `pop` it at time
3: final length 0 plus one removal equals one push. -/
theorem C7_witness :
    (runFrom (TimeoutQueue.new Nat)
        [Op.push 5 2 0 0 true, Op.fpop (fun _ => true) 3 3 true]).len +
      runRemoved (TimeoutQueue.new Nat)
        [Op.push 5 2 0 0 true, Op.fpop (fun _ => true) 3 3 true] =
      runPushed [Op.push (5 : Nat) 2 0 0 true, Op.fpop (fun _ => true) 3 3 true] :=
  (C7_count_invariant [Op.push 5 2 0 0 true, Op.fpop (fun _ => true) 3 3 true]).1

/-! ### C9: `push` behaviour -/

/-- C9: `push` inserts exactly the entry `⟨now + timeout, item⟩` (the heap
afterwards is a permutation of the old heap plus that entry), grows the
queue by exactly one, and equals `poll_timeout` (wake-up synchronization)
applied to the intermediate state in which the pending handle was
invalidated precisely when the new expiry is strictly earlier than the
pre-insertion minimum (the peeked head), and left untouched when the queue
was empty or the new expiry is not strictly earlier.  It is a total
function: it never fails. -/
theorem C9_push_spec {T : Type} (item : T) (timeout now pollNow : Nat) (fired : Bool)
    (s : TimeoutQueue T) :
    ((s.push item timeout now pollNow fired).queue.Perm
      ({ expiry_time := now + timeout, item := item } :: s.queue)) ∧
    ((s.push item timeout now pollNow fired).len = s.len + 1) ∧
    (s.push item timeout now pollNow fired =
      poll_timeout fired pollNow
        { queue := heapInsert { expiry_time := now + timeout, item := item } s.queue
          next_timeout :=
            match s.queue.head? with
            | some x => if now + timeout < x.expiry_time then none else s.next_timeout
            | none => s.next_timeout }) := by
  refine ⟨?_, ?_, ?_⟩
  · rw [push_queue]
    exact heapInsert_perm _ _
  · simp [TimeoutQueue.len, push_queue, heapInsert_length]
  · rcases h : s.queue.head? with _ | x
    · simp [TimeoutQueue.push, h]
    · by_cases hlt : now + timeout < x.expiry_time <;>
        simp [TimeoutQueue.push, h, hlt]

/-! ### C10: one clock sample for the whole scan? -/

/-- C10 counterexample: a single `filter_pop` call's outcome depends on a
*second* clock sample (the one `poll_timeout` takes), so the current time
is not sampled exactly once per call: with scan sample 3 on queue
`[⟨10, 0⟩]`, a second sample of 2 registers a wake-up for 8 while a second
sample of 11 clears the handle, giving different final states. -/
theorem C10_counterexample :
    TimeoutQueue.filter_pop (fun _ => true) 3 2 true
        (⟨[⟨10, 0⟩], none⟩ : TimeoutQueue Nat) ≠
      TimeoutQueue.filter_pop (fun _ => true) 3 11 true
        (⟨[⟨10, 0⟩], none⟩ : TimeoutQueue Nat) := by
  decide

/-- C10 amended: the *scan* of `filter_pop` uses the single clock sample
taken at the start of the call for every expiry comparison — the returned
payload and the final heap are independent of the later sample (and of the
wake-up oracle), which only the trailing `poll_timeout` consumes — and
consequently an entry whose expiry is still in the future at the scan
sample is treated as unexpired (reinserted, `none` returned) no matter what
the later sample is, so the expired/unexpired classification is consistent
across the whole scan. -/
theorem C10_single_scan_instant {T : Type} (f : T → Bool)
    (now pollNow pollNow' : Nat) (fired fired' : Bool) (s : TimeoutQueue T) :
    ((s.filter_pop f now pollNow fired).1 = (s.filter_pop f now pollNow' fired').1 ∧
     (s.filter_pop f now pollNow fired).2.queue =
       (s.filter_pop f now pollNow' fired').2.queue) ∧
    (∀ (x : Item T) (xs : List (Item T)) (nt : Option Nat),
      f x.item = true → now < x.expiry_time →
      (TimeoutQueue.filter_pop f now pollNow fired ⟨x :: xs, nt⟩).1 = none) := by
  constructor
  · constructor
    · rw [filter_pop_fst, filter_pop_fst]
    · rw [filter_pop_queue, filter_pop_queue]
  · intro x xs nt hxf hx
    rw [filter_pop_fst]
    unfold filterPopLoop
    rw [if_neg (by simp [hxf]), if_pos hx]

/-- Closed instance of C10 amended: the entry with expiry 10 is unexpired
at the scan sample 3 and the call returns `none`, even though the second
clock sample 20 lies past the expiry. -/
theorem C10_witness :
    (TimeoutQueue.filter_pop (fun _ => true) 3 20 true
        (⟨[⟨10, 0⟩], none⟩ : TimeoutQueue Nat)).1 = none :=
  (C10_single_scan_instant (fun _ => true) 3 20 20 true true
    (⟨[⟨10, 0⟩], none⟩ : TimeoutQueue Nat)).2 ⟨10, 0⟩ [] none rfl (by decide)

end FTQ
